import Mathlib

/-!
Shallow embedding of `validateBankAccount/main.go` (andyflatt/accountvalidator).

The Go program is an AWS Lambda handler that validates a bank account number
against a configurable list of providers.  Pure functions are translated
directly; effectful calls (HTTP POST, body read, JSON/YAML unmarshalling of
externally supplied bytes, environment lookup) are abstracted by inductive
environments that enumerate exactly the outcome classes the Go code branches
on.  A Go nil-pointer-dereference panic is modelled as `none` of an `Option`
result.
-/

namespace AccountValidator

/-- Go `type Provider struct` with fields `Name` and `URL`. -/
structure Provider where
  name : String
  url : String
deriving Repr, DecidableEq

/-- Go `type Config struct` with field `Providers []Provider`. -/
structure Config where
  providers : List Provider
deriving Repr, DecidableEq

/-- Go `type BankAccountValidationRequest struct`: pointer fields
`AccountNumber *string` and `Providers *[]string` become `Option`s
(`none` is a nil pointer / absent JSON field). -/
structure BankAccountValidationRequest where
  accountNumber : Option String
  providers : Option (List String)
deriving Repr, DecidableEq

/-- Go `type BankAccountValidationResult struct` with fields
`Provider string` and `IsValid bool`. -/
structure BankAccountValidationResult where
  provider : String
  isValid : Bool
deriving Repr, DecidableEq

/-- Go `type BankAccountValidationResponse struct` with field
`Result []BankAccountValidationResult`. -/
structure BankAccountValidationResponse where
  result : List BankAccountValidationResult
deriving Repr, DecidableEq

/-- Go `type Response events.APIGatewayProxyResponse`, restricted to the four
fields the program sets: `StatusCode`, `IsBase64Encoded`, `Body`, `Headers`
(the headers map holds at most the single Content-Type entry, modelled as an
association list). -/
structure Response where
  statusCode : Nat
  isBase64Encoded : Bool
  body : String
  headers : List (String × String)
deriving Repr, DecidableEq

/-!
## Provider registry filter (`providersToCall`)

The Go code builds `confMap := map[string]Provider` by ranging over the
configured providers; inserting the same key twice overwrites, so a lookup
returns the LAST configured provider with that name.  `confMapLookup`
reproduces this left-to-right overwrite with a `foldl`.
-/

/-- Lookup in the Go map `confMap` built from `providers`: later entries with
the same `Name` overwrite earlier ones. -/
def confMapLookup (providers : List Provider) (n : String) : Option Provider :=
  providers.foldl (fun acc p => if p.name = n then some p else acc) none

/-- Go `providersToCall(providers []Provider, filter *[]string) []Provider`:
nil filter returns all configured providers; otherwise, for each name in the
filter (in the FILTER's iteration order), the matching configured provider is
appended when it exists. -/
def providersToCall (providers : List Provider) (filter : Option (List String)) :
    List Provider :=
  match filter with
  | none => providers
  | some names => names.filterMap (confMapLookup providers)

/-!
## Provider client (`checkProvider`)

`checkProvider` performs `client.Post` (1 second timeout), `io.ReadAll` on the
response body, then `json.Unmarshal(bodyBytes, &providerResponse)` into a
`*DataProviderResponse`, and finally reads `providerResponse.IsValid`.  The
effectful steps are abstracted by the inductives below, which enumerate the
outcome classes the Go code branches on.  Note two facts visible in the
source: `response.StatusCode` is never inspected, and the initial
`json.Marshal` of a `map[string]string` cannot fail, so its error branch is
unreachable and is not modelled.
-/

/-- Result of `json.Unmarshal` of the provider's body into
`*DataProviderResponse`: `malformed` is an unmarshal error; `jsonNull` is the
body `null`, which unmarshals successfully but leaves the pointer nil;
`verdict b` is an object body whose `IsValid` field decodes to `b` (Go
defaults a missing field to `false`). -/
inductive ProviderBody
  | malformed
  | jsonNull
  | verdict (isValid : Bool)
deriving Repr, DecidableEq

/-- Result of `io.ReadAll(response.Body)`. -/
inductive ReadResult
  | readError
  | readOk (body : ProviderBody)
deriving Repr, DecidableEq

/-- The parts of an `http.Response` the code can observe: the status code
(which, per the source, it never reads) and the body stream. -/
structure HttpResponse where
  statusCode : Nat
  body : ReadResult
deriving Repr, DecidableEq

/-- Result of `client.Post`: `postError` is a transport error, including the
1-second client timeout; `postOk` is any completed HTTP exchange, whatever
its status code. -/
inductive PostOutcome
  | postError
  | postOk (resp : HttpResponse)
deriving Repr, DecidableEq

/-- The `defaultResponse` value declared at the top of Go `checkProvider`. -/
def defaultResponse (provider : Provider) : BankAccountValidationResult :=
  { isValid := false, provider := provider.name }

/-- Go `checkProvider` as a function of the outcome of its one HTTP call.
The channel send is modelled by returning the sent result; `none` models the
nil-pointer-dereference panic on `providerResponse.IsValid` when the body was
the JSON literal `null` (the goroutine, and with it the process, dies without
sending anything).  `accountNumber` is carried in the outbound payload but
never affects which branch is taken. -/
def checkProvider (accountNumber : String) (provider : Provider)
    (call : PostOutcome) : Option BankAccountValidationResult :=
  match call with
  | .postError => some (defaultResponse provider)
  | .postOk resp =>
    match resp.body with
    | .readError => some (defaultResponse provider)
    | .readOk .malformed => some (defaultResponse provider)
    | .readOk .jsonNull => none
    | .readOk (.verdict b) => some { isValid := b, provider := provider.name }

/-!
## Aggregator (`checkProviders`)

Go `checkProviders` launches one `checkProvider` goroutine per provider and
collects every channel send until the WaitGroup closes the channel.  The
multiset of collected results is exactly one result per launched goroutine;
the channel delivers them in completion order, which is scheduler-dependent,
so the embedding fixes launch order as the representative order.  If any
goroutine panics (the `jsonNull` branch) the process dies before a response
exists, modelled by `none`.
-/

/-- Collect the channel sends of the goroutines spawned for `providers`, in
launch order; `none` as soon as some goroutine panics instead of sending. -/
def collectResults (accountNumber : String) (providers : List Provider)
    (calls : Provider → PostOutcome) : Option (List BankAccountValidationResult) :=
  match providers with
  | [] => some []
  | p :: rest =>
    match checkProvider accountNumber p (calls p), collectResults accountNumber rest calls with
    | some r, some rs => some (r :: rs)
    | _, _ => none

/-- Go `checkProviders(accountNumber string, providers []Provider)`. -/
def checkProviders (accountNumber : String) (providers : List Provider)
    (calls : Provider → PostOutcome) : Option BankAccountValidationResponse :=
  (collectResults accountNumber providers calls).map
    (fun rs => { result := rs })

/-!
## Error responses, request parsing, handler, configuration

`handleError` serialises `map[string]interface\x7b\x7d with key "error"` via
`json.Marshal` followed by `json.HTMLEscape`.  Every message the program
passes to it is a fixed ASCII string with no quote, backslash, control, `<`,
`>`, `&` or U+2028/U+2029 characters, so both escaping passes are the
identity on them and the body is literal concatenation.
-/

/-- Go `handleError(err error, message string) *Response` (the `err` argument
is only logged and does not influence the response). -/
def handleError (message : String) : Response :=
  { statusCode := 500
    isBase64Encoded := false
    body := "\x7b\"error\":\"" ++ message ++ "\"\x7d"
    headers := [("Content-Type", "application/json")] }

/-- Result of `json.Unmarshal(request.Body, &validationRequest)` into a
`*BankAccountValidationRequest`: `malformed` is an unmarshal error;
`jsonNull` is the body `null`, which unmarshals successfully but leaves the
pointer nil; `parsed req` is an object body decoding to `req` (absent JSON
fields leave the corresponding pointers nil, i.e. `none`). -/
inductive RequestBody
  | malformed
  | jsonNull
  | parsed (req : BankAccountValidationRequest)
deriving Repr, DecidableEq

/-- Go `unmarshalRequest`: returns either the decoded request or an error
response (the Go pair of nilable pointers becomes a sum).  `none` models the
nil-pointer-dereference panic of `validationRequest.AccountNumber` when the
body was the JSON literal `null`. -/
def unmarshalRequest (body : RequestBody) :
    Option (BankAccountValidationRequest ⊕ Response) :=
  match body with
  | .malformed => some (.inr (handleError "invalid json payload"))
  | .jsonNull => none
  | .parsed req =>
    match req.accountNumber with
    | none => some (.inr (handleError "account number missing from payload"))
    | some _ => some (.inl req)

/-- Serialisation of one `BankAccountValidationResult` by `json.Marshal`
(struct field order: `provider`, then `isValid`). -/
def marshalResult (r : BankAccountValidationResult) : String :=
  "\x7b\"provider\":\"" ++ r.provider ++ "\",\"isValid\":"
    ++ (if r.isValid then "true" else "false") ++ "\x7d"

/-- Serialisation of a `BankAccountValidationResponse` by `json.Marshal`.
Marshalling this struct cannot fail in Go, so the Handler's
`Response\x7bStatusCode: 404\x7d` fallback branch is unreachable and is not
modelled; `json.HTMLEscape` is the identity on this output for the account
numbers and provider names free of `<`, `>`, `&`. -/
def marshalResponse (resp : BankAccountValidationResponse) : String :=
  "\x7b\"result\":[" ++ String.intercalate "," (resp.result.map marshalResult) ++ "]\x7d"

/-- Go `(config *Config) Handler(ctx, request)`: parse the request, filter
the registry, run the aggregator, serialise.  `none` models a panic (either
the `jsonNull` request body inside `unmarshalRequest`, or — unreachably,
since `unmarshalRequest` guarantees the field — the deref
`*validationRequest.AccountNumber`, or a provider goroutine panic inside
`checkProviders`). -/
def Handler (config : Config) (body : RequestBody)
    (calls : Provider → PostOutcome) : Option Response :=
  match unmarshalRequest body with
  | none => none
  | some (.inr errorResponse) => some errorResponse
  | some (.inl validationRequest) =>
    match validationRequest.accountNumber with
    | none => none
    | some accountNumber =>
      match checkProviders accountNumber
          (providersToCall config.providers validationRequest.providers) calls with
      | none => none
      | some response =>
        some { statusCode := 200
               isBase64Encoded := false
               body := marshalResponse response
               headers := [("Content-Type", "application/json")] }

/-- Whether the Handler's control flow reaches the core
(`providersToCall` / `checkProviders`): in the Go source those calls sit in
the single branch where `unmarshalRequest` returned a request and no error. -/
def handlerInvokesCore (body : RequestBody) : Bool :=
  match unmarshalRequest body with
  | some (.inl _) => true
  | _ => false

/-- Result of `yaml.Unmarshal(providerYaml, &config)` into a `*Config`:
`yamlError` is a parse error; `yamlNull` is input (such as the empty string)
that parses but leaves the pointer nil; `yamlOk c` decodes to `c`. -/
inductive YamlParse
  | yamlError
  | yamlNull
  | yamlOk (config : Config)
deriving Repr, DecidableEq

/-- Go `readConfig()` as a function of `os.LookupEnv("PROVIDERS")` (`none` =
variable unset) and the yaml parse of its value; the Go pair of nilable
pointers becomes an `Except`.  The source treats `err != nil` and
`config == nil` identically. -/
def readConfig (providersEnv : Option YamlParse) : Except Response Config :=
  match providersEnv with
  | none => .error (handleError "ENVVAR PROVIDERS is required")
  | some .yamlError => .error (handleError "ENVVAR PROVIDERS is invalid yaml")
  | some .yamlNull => .error (handleError "ENVVAR PROVIDERS is invalid yaml")
  | some (.yamlOk config) => .ok config

/-! ## Helper lemmas about the registry filter -/

theorem confMapLookup_foldl (l : List Provider) (n : String) (acc : Option Provider) :
    l.foldl (fun a p => if p.name = n then some p else a) acc
      = (confMapLookup l n).elim acc some := by
  induction l generalizing acc with
  | nil => rfl
  | cons p l ih =>
    simp only [confMapLookup, List.foldl_cons] at ih ⊢
    rw [ih (if p.name = n then some p else acc), ih (if p.name = n then some p else none)]
    cases heq : l.foldl (fun a q => if q.name = n then some q else a) none with
    | none => by_cases hp : p.name = n <;> simp [hp]
    | some q => simp

theorem confMapLookup_cons (p : Provider) (l : List Provider) (n : String) :
    confMapLookup (p :: l) n
      = (confMapLookup l n).elim (if p.name = n then some p else none) some := by
  simp only [confMapLookup, List.foldl_cons]
  exact confMapLookup_foldl l n (if p.name = n then some p else none)

theorem confMapLookup_mem {l : List Provider} {n : String} {p : Provider}
    (h : confMapLookup l n = some p) : p ∈ l ∧ p.name = n := by
  induction l with
  | nil => simp [confMapLookup] at h
  | cons q l ih =>
    rw [confMapLookup_cons] at h
    cases heq : confMapLookup l n with
    | none =>
      rw [heq, Option.elim_none] at h
      by_cases hq : q.name = n
      · rw [if_pos hq] at h
        obtain rfl := Option.some.inj h
        exact ⟨List.mem_cons_self _ _, hq⟩
      · rw [if_neg hq] at h
        simp at h
    | some r =>
      rw [heq, Option.elim_some] at h
      obtain rfl := Option.some.inj h
      exact ⟨List.mem_cons_of_mem _ (ih heq).1, (ih heq).2⟩

theorem confMapLookup_eq_none {l : List Provider} {n : String} :
    confMapLookup l n = none ↔ n ∉ l.map Provider.name := by
  induction l with
  | nil => simp [confMapLookup]
  | cons q l ih =>
    rw [confMapLookup_cons, List.map_cons]
    cases heq : confMapLookup l n with
    | none =>
      rw [Option.elim_none]
      by_cases hq : q.name = n
      · rw [if_pos hq]
        simp [List.mem_cons, hq]
      · rw [if_neg hq]
        have hq' : ¬ n = q.name := fun h => hq h.symm
        simp [List.mem_cons, hq', ih.mp heq]
    | some r =>
      rw [Option.elim_some]
      have hm : n ∈ l.map Provider.name :=
        List.mem_map.mpr ⟨r, (confMapLookup_mem heq).1, (confMapLookup_mem heq).2⟩
      simp [List.mem_cons, hm]

theorem confMapLookup_isSome {l : List Provider} {n : String} :
    (confMapLookup l n).isSome ↔ n ∈ l.map Provider.name := by
  cases heq : confMapLookup l n with
  | none => simpa [heq] using confMapLookup_eq_none.mp heq
  | some p =>
    have := (confMapLookup_mem heq).1
    have hname := (confMapLookup_mem heq).2
    simp only [heq, Option.isSome_some, true_iff]
    exact hname ▸ List.mem_map_of_mem Provider.name this

theorem providersToCall_names (providers : List Provider) (names : List String) :
    (providersToCall providers (some names)).map Provider.name
      = names.filter (fun n => decide (n ∈ providers.map Provider.name)) := by
  induction names with
  | nil => rfl
  | cons n rest ih =>
    simp only [providersToCall] at ih ⊢
    rw [List.filterMap_cons]
    cases heq : confMapLookup providers n with
    | none =>
      have hnot : n ∉ providers.map Provider.name := confMapLookup_eq_none.mp heq
      rw [List.filter_cons_of_neg (by simpa using hnot)]
      exact ih
    | some p =>
      have hname : p.name = n := (confMapLookup_mem heq).2
      have hmem : n ∈ providers.map Provider.name :=
        hname ▸ List.mem_map_of_mem Provider.name (confMapLookup_mem heq).1
      rw [List.filter_cons_of_pos (by simpa using hmem), List.map_cons, hname, ih]

theorem providersToCall_subset (providers : List Provider) (names : List String)
    {p : Provider} (h : p ∈ providersToCall providers (some names)) : p ∈ providers := by
  simp only [providersToCall, List.mem_filterMap] at h
  obtain ⟨n, _, hlk⟩ := h
  exact (confMapLookup_mem hlk).1

theorem confMapLookup_cons_ne (p : Provider) (ps : List Provider) {n : String}
    (h : p.name ≠ n) : confMapLookup (p :: ps) n = confMapLookup ps n := by
  rw [confMapLookup_cons, if_neg h]
  cases confMapLookup ps n <;> simp

/-! ## Claims about the registry filter -/

/-- C3 counterexample: with configured providers `provider1, provider2` and
filter `[provider2, provider1]`, `providersToCall` returns the providers in
the FILTER's order `[provider2, provider1]`, not the configured order
`[provider1, provider2]` the claim requires. -/
theorem providersToCall_configOrder_cex :
    providersToCall [⟨"provider1", "u1"⟩, ⟨"provider2", "u2"⟩]
        (some ["provider2", "provider1"])
      = [⟨"provider2", "u2"⟩, ⟨"provider1", "u1"⟩] ∧
    providersToCall [⟨"provider1", "u1"⟩, ⟨"provider2", "u2"⟩]
        (some ["provider2", "provider1"])
      ≠ [⟨"provider1", "u1"⟩, ⟨"provider2", "u2"⟩] := by
  constructor
  · rfl
  · decide

/-- C3 (amended): for every configured provider list and every present
(non-nil) filter, `providersToCall` returns exactly the configured providers
whose name appears in the filter, in the FILTER's order (one entry per filter
occurrence); names matching no configured provider are silently dropped, and
every returned provider is one of the configured providers. -/
theorem providersToCall_filter_order (providers : List Provider) (names : List String) :
    (providersToCall providers (some names)).map Provider.name
        = names.filter (fun n => decide (n ∈ providers.map Provider.name)) ∧
    ∀ p ∈ providersToCall providers (some names), p ∈ providers :=
  ⟨providersToCall_names providers names,
   fun _ h => providersToCall_subset providers names h⟩

/-- C4 counterexample: the filter `[provider1, provider1]` against the single
configured provider `provider1` yields that provider TWICE, so duplicate
names in the filter do duplicate the result, contradicting the claim that a
provider appears at most once. -/
theorem providersToCall_dup_cex :
    providersToCall [⟨"provider1", "u1"⟩] (some ["provider1", "provider1"])
      = [⟨"provider1", "u1"⟩, ⟨"provider1", "u1"⟩] ∧
    (providersToCall [⟨"provider1", "u1"⟩]
        (some ["provider1", "provider1"])).count ⟨"provider1", "u1"⟩ = 2 := by
  constructor
  · rfl
  · rfl

/-- C4 (amended): for every present filter and every name of a configured
provider, the provider named `n` occurs in the result once per occurrence of
`n` in the filter — duplicates in the filter duplicate the result instead of
being collapsed. -/
theorem providersToCall_dup_count (providers : List Provider) (names : List String)
    (n : String) (h : n ∈ providers.map Provider.name) :
    ((providersToCall providers (some names)).map Provider.name).count n
      = names.count n := by
  rw [providersToCall_names]
  exact List.count_filter (by simpa using h)

/-- Witness for `providersToCall_dup_count` at a concrete input. -/
theorem providersToCall_dup_count_witness :
    ("provider1" ∈ ([⟨"provider1", "u1"⟩] : List Provider).map Provider.name) ∧
    ((providersToCall [⟨"provider1", "u1"⟩]
          (some ["provider1", "provider1"])).map Provider.name).count "provider1"
      = (["provider1", "provider1"] : List String).count "provider1" :=
  ⟨by decide,
   providersToCall_dup_count [⟨"provider1", "u1"⟩] ["provider1", "provider1"]
     "provider1" (by decide)⟩

/-- C5: filtering a configured provider list with pairwise-distinct names by
exactly its own names returns the list itself unchanged. -/
theorem providersToCall_roundTrip (providers : List Provider)
    (h : (providers.map Provider.name).Nodup) :
    providersToCall providers (some (providers.map Provider.name)) = providers := by
  induction providers with
  | nil => rfl
  | cons p ps ih =>
    rw [List.map_cons] at h ⊢
    have hhead : p.name ∉ ps.map Provider.name := (List.nodup_cons.mp h).1
    have htail : (ps.map Provider.name).Nodup := (List.nodup_cons.mp h).2
    simp only [providersToCall] at ih ⊢
    rw [List.filterMap_cons]
    have hself : confMapLookup (p :: ps) p.name = some p := by
      rw [confMapLookup_cons, confMapLookup_eq_none.mpr hhead, Option.elim_none, if_pos rfl]
    rw [hself]
    have hrest : (ps.map Provider.name).filterMap (confMapLookup (p :: ps))
        = (ps.map Provider.name).filterMap (confMapLookup ps) := by
      apply List.filterMap_congr
      intro m hm
      exact confMapLookup_cons_ne p ps (fun hpn => hhead (by rw [hpn]; exact hm))
    rw [hrest, ih htail]

/-- Witness for `providersToCall_roundTrip` at a concrete input. -/
theorem providersToCall_roundTrip_witness :
    (([⟨"provider1", "u1"⟩, ⟨"provider2", "u2"⟩] : List Provider).map Provider.name).Nodup ∧
    providersToCall [⟨"provider1", "u1"⟩, ⟨"provider2", "u2"⟩]
        (some (([⟨"provider1", "u1"⟩, ⟨"provider2", "u2"⟩] : List Provider).map Provider.name))
      = [⟨"provider1", "u1"⟩, ⟨"provider2", "u2"⟩] :=
  ⟨by decide, providersToCall_roundTrip [⟨"provider1", "u1"⟩, ⟨"provider2", "u2"⟩] (by decide)⟩

/-- C6: with a present-but-empty filter `providersToCall` returns the empty
list, while with an absent (nil) filter it returns all configured providers
in configured order; neither case is an error (the function is total). -/
theorem providersToCall_empty_vs_nil (providers : List Provider) :
    providersToCall providers (some []) = [] ∧
    providersToCall providers none = providers :=
  ⟨rfl, rfl⟩

/-! ## Claims about the provider client and the aggregator -/

theorem checkProvider_provider_name (accountNumber : String) (p : Provider)
    (call : PostOutcome) {r : BankAccountValidationResult}
    (h : checkProvider accountNumber p call = some r) : r.provider = p.name := by
  cases call with
  | postError =>
    cases h
    rfl
  | postOk resp =>
    obtain ⟨s, b⟩ := resp
    cases b with
    | readError =>
      cases h
      rfl
    | readOk pb =>
      cases pb with
      | malformed =>
        cases h
        rfl
      | jsonNull => cases h
      | verdict v =>
        cases h
        rfl

theorem collectResults_complete (accountNumber : String) (providers : List Provider)
    (calls : Provider → PostOutcome)
    (h : ∀ p ∈ providers, checkProvider accountNumber p (calls p) ≠ none) :
    ∃ rs, collectResults accountNumber providers calls = some rs ∧
      rs.length = providers.length ∧
      rs.map BankAccountValidationResult.provider = providers.map Provider.name := by
  induction providers with
  | nil => exact ⟨[], rfl, rfl, rfl⟩
  | cons p ps ih =>
    obtain ⟨r, hr⟩ :=
      Option.ne_none_iff_exists'.mp (h p (List.mem_cons_self p ps))
    obtain ⟨rs, hrs, hlen, hnames⟩ := ih (fun q hq => h q (List.mem_cons_of_mem p hq))
    refine ⟨r :: rs, ?_, ?_, ?_⟩
    · simp only [collectResults, hr, hrs]
    · simp [hlen]
    · rw [List.map_cons, List.map_cons, hnames,
        checkProvider_provider_name accountNumber p (calls p) hr]

/-- C1 counterexample: with the two-element provider list holding the same
name `provider1` twice (reachable, e.g., from a duplicate-name filter) and
every call failing, `checkProviders` returns two outcomes that carry the SAME
providerName, so the outcomes' providerNames are not distinct as the claim
requires. -/
theorem checkProviders_distinct_cex :
    checkProviders "12345678" [⟨"provider1", "u"⟩, ⟨"provider1", "u"⟩]
        (fun _ => .postError)
      = some ⟨[⟨"provider1", false⟩, ⟨"provider1", false⟩]⟩ ∧
    ¬ (([⟨"provider1", false⟩, ⟨"provider1", false⟩] :
          List BankAccountValidationResult).map
            BankAccountValidationResult.provider).Nodup := by
  constructor
  · rfl
  · decide

/-- C1 (amended): provided every provider call terminates with an outcome
(no call hits the nil-dereference panic on a JSON null body), `checkProviders`
returns exactly one outcome per provider in `P`, the i-th outcome carrying
the name of the i-th provider — so no outcome is dropped however many calls
fail or time out, and the providerNames are distinct whenever the names in
`P` are. -/
theorem checkProviders_complete (accountNumber : String) (providers : List Provider)
    (calls : Provider → PostOutcome)
    (h : ∀ p ∈ providers, checkProvider accountNumber p (calls p) ≠ none) :
    ∃ response, checkProviders accountNumber providers calls = some response ∧
      response.result.length = providers.length ∧
      response.result.map BankAccountValidationResult.provider
        = providers.map Provider.name := by
  obtain ⟨rs, hrs, hlen, hnames⟩ := collectResults_complete accountNumber providers calls h
  exact ⟨⟨rs⟩, by simp [checkProviders, hrs], hlen, hnames⟩

/-- Witness for `checkProviders_complete` at a concrete input. -/
theorem checkProviders_complete_witness :
    (∀ p ∈ ([⟨"provider1", "u1"⟩, ⟨"provider2", "u2"⟩] : List Provider),
        checkProvider "12345678" p ((fun _ => PostOutcome.postError) p) ≠ none) ∧
    (∃ response,
        checkProviders "12345678" [⟨"provider1", "u1"⟩, ⟨"provider2", "u2"⟩]
            (fun _ => PostOutcome.postError) = some response ∧
        response.result.length
          = ([⟨"provider1", "u1"⟩, ⟨"provider2", "u2"⟩] : List Provider).length ∧
        response.result.map BankAccountValidationResult.provider
          = ([⟨"provider1", "u1"⟩, ⟨"provider2", "u2"⟩] : List Provider).map Provider.name) :=
  ⟨by decide,
   checkProviders_complete "12345678" [⟨"provider1", "u1"⟩, ⟨"provider2", "u2"⟩]
     (fun _ => PostOutcome.postError) (by decide)⟩

/-- C2 counterexample: a completed HTTP exchange with non-success status 500
whose body parses to the verdict `true` makes `checkProvider` report
`isValid = true`, not the default `isValid = false` outcome the claim
requires for a non-success HTTP status — the source never inspects
`response.StatusCode`. -/
theorem checkProvider_statusIgnored_cex :
    checkProvider "12345678" ⟨"provider1", "u1"⟩
        (.postOk ⟨500, .readOk (.verdict true)⟩)
      = some ⟨"provider1", true⟩ ∧
    (some ⟨"provider1", true⟩ : Option BankAccountValidationResult)
      ≠ some (defaultResponse ⟨"provider1", "u1"⟩) := by
  constructor
  · rfl
  · decide

/-- C2 (amended): `checkProvider` never inspects the HTTP status code; on a
network error or timeout, a body-read error, or a malformed response body it
absorbs the failure into the outcome with the provider's name and
`isValid = false`; on a body parsing to a verdict it reports exactly that
verdict whatever the status; and on a body parsing to JSON null it panics
and produces no outcome at all. -/
theorem checkProvider_absorbs (accountNumber : String) (p : Provider) :
    (∀ s s' rb, checkProvider accountNumber p (.postOk ⟨s, rb⟩)
        = checkProvider accountNumber p (.postOk ⟨s', rb⟩)) ∧
    checkProvider accountNumber p .postError = some (defaultResponse p) ∧
    (∀ s, checkProvider accountNumber p (.postOk ⟨s, .readError⟩)
        = some (defaultResponse p)) ∧
    (∀ s, checkProvider accountNumber p (.postOk ⟨s, .readOk .malformed⟩)
        = some (defaultResponse p)) ∧
    (∀ s b, checkProvider accountNumber p (.postOk ⟨s, .readOk (.verdict b)⟩)
        = some { provider := p.name, isValid := b }) ∧
    (∀ s, checkProvider accountNumber p (.postOk ⟨s, .readOk .jsonNull⟩) = none) := by
  refine ⟨?_, rfl, fun s => rfl, fun s => rfl, fun s b => rfl, fun s => rfl⟩
  intro s s' rb
  cases rb with
  | readError => rfl
  | readOk pb => cases pb <;> rfl

/-- C8: a provider reply whose body is the JSON literal null is well-formed
JSON, unmarshals successfully into a nil `*DataProviderResponse`, and the
subsequent `providerResponse.IsValid` dereference panics: `checkProvider`
produces no outcome for this syntactically valid response body. -/
theorem checkProvider_nilDeref :
    checkProvider "12345678" ⟨"provider1", "u1"⟩
        (.postOk ⟨200, .readOk .jsonNull⟩) = none := rfl

/-! ## Claims about the handler, request validation and error responses -/

/-- C7 counterexample: a request body that is the JSON literal null parses
successfully (it is not "unparseable") and its payload carries no
accountNumber, yet the Handler does not return the `unmarshalRequest` error
response: the nil `*BankAccountValidationRequest` is dereferenced and the
invocation panics before any response exists. -/
theorem Handler_jsonNull_cex :
    unmarshalRequest .jsonNull = none ∧
    Handler ⟨[]⟩ .jsonNull (fun _ => .postError) = none :=
  ⟨rfl, rfl⟩

/-- C7 (amended): for every request body that is unparseable JSON, or that
parses to an OBJECT lacking the accountNumber field, the Handler returns
exactly the error response produced by `unmarshalRequest`, and the core
(`providersToCall` / `checkProviders`) is never reached; a body parsing to
the JSON literal null instead hits a nil-pointer dereference inside
`unmarshalRequest` and produces no response. -/
theorem Handler_rejects_bad_request (config : Config) (calls : Provider → PostOutcome)
    (body : RequestBody)
    (h : body = .malformed ∨ ∃ ps, body = .parsed ⟨none, ps⟩) :
    (∃ e, unmarshalRequest body = some (.inr e) ∧
        Handler config body calls = some e) ∧
    handlerInvokesCore body = false := by
  rcases h with rfl | ⟨ps, rfl⟩
  · exact ⟨⟨handleError "invalid json payload", rfl, rfl⟩, rfl⟩
  · exact ⟨⟨handleError "account number missing from payload", rfl, rfl⟩, rfl⟩

/-- Witness for `Handler_rejects_bad_request` at a concrete input. -/
theorem Handler_rejects_bad_request_witness :
    (RequestBody.malformed = RequestBody.malformed ∨
      ∃ ps, RequestBody.malformed = RequestBody.parsed ⟨none, ps⟩) ∧
    ((∃ e, unmarshalRequest .malformed = some (.inr e) ∧
        Handler ⟨[]⟩ .malformed (fun _ => PostOutcome.postError) = some e) ∧
      handlerInvokesCore .malformed = false) :=
  ⟨Or.inl rfl,
   Handler_rejects_bad_request ⟨[]⟩ (fun _ => PostOutcome.postError) .malformed (Or.inl rfl)⟩

/-- C9: a request body whose accountNumber field is present but the empty
string passes validation — `unmarshalRequest` returns it as a successful
parse, the core is invoked, and the Handler hands the empty account number
to `checkProviders`, which forwards it to every provider call; non-emptiness
is never enforced at the public interface. -/
theorem unmarshalRequest_emptyAccount (config : Config) (calls : Provider → PostOutcome) :
    unmarshalRequest (.parsed ⟨some "", none⟩) = some (.inl ⟨some "", none⟩) ∧
    handlerInvokesCore (.parsed ⟨some "", none⟩) = true ∧
    Handler config (.parsed ⟨some "", none⟩) calls
      = (checkProviders "" config.providers calls).map
          (fun response =>
            { statusCode := 200
              isBase64Encoded := false
              body := marshalResponse response
              headers := [("Content-Type", "application/json")] }) := by
  refine ⟨rfl, rfl, ?_⟩
  cases hc : checkProviders "" config.providers calls with
  | none => simp [Handler, unmarshalRequest, providersToCall, hc]
  | some response => simp [Handler, unmarshalRequest, providersToCall, hc]

/-- C10: every error response the program constructs — for an unparseable
request body, for a missing accountNumber, and for missing or invalid
PROVIDERS configuration — is built by `handleError`, hence has status code
500, the application/json Content-Type header and a body that is exactly the
one-key error object; every non-error Handler response has status code
200, so no other error shape or status code is ever produced. -/
theorem errorResponses_uniform :
    (∀ m, handleError m
        = { statusCode := 500
            isBase64Encoded := false
            body := "\x7b\"error\":\"" ++ m ++ "\"\x7d"
            headers := [("Content-Type", "application/json")] }) ∧
    (∀ body e, unmarshalRequest body = some (.inr e) →
        e = handleError "invalid json payload" ∨
        e = handleError "account number missing from payload") ∧
    (∀ cfg e, readConfig cfg = .error e →
        e = handleError "ENVVAR PROVIDERS is required" ∨
        e = handleError "ENVVAR PROVIDERS is invalid yaml") ∧
    (∀ config body calls r, Handler config body calls = some r →
        r.statusCode = 200 ∨ ∃ m, r = handleError m) := by
  refine ⟨fun m => rfl, ?_, ?_, ?_⟩
  · intro body e he
    cases body with
    | malformed => exact Or.inl (Sum.inr.inj (Option.some.inj he)).symm
    | jsonNull => simp [unmarshalRequest] at he
    | parsed req =>
      obtain ⟨acct, ps⟩ := req
      cases acct with
      | none => exact Or.inr (Sum.inr.inj (Option.some.inj he)).symm
      | some a => simp [unmarshalRequest] at he
  · intro cfg e he
    cases cfg with
    | none =>
      simp only [readConfig, Except.error.injEq] at he
      exact Or.inl he.symm
    | some yp =>
      cases yp with
      | yamlError =>
        simp only [readConfig, Except.error.injEq] at he
        exact Or.inr he.symm
      | yamlNull =>
        simp only [readConfig, Except.error.injEq] at he
        exact Or.inr he.symm
      | yamlOk c => simp [readConfig] at he
  · intro config body calls r hr
    cases body with
    | malformed => exact Or.inr ⟨"invalid json payload", (Option.some.inj hr).symm⟩
    | jsonNull => simp [Handler, unmarshalRequest] at hr
    | parsed req =>
      obtain ⟨acct, ps⟩ := req
      cases acct with
      | none =>
        exact Or.inr ⟨"account number missing from payload", (Option.some.inj hr).symm⟩
      | some a =>
        cases hc : checkProviders a (providersToCall config.providers ps) calls with
        | none => simp [Handler, unmarshalRequest, hc] at hr
        | some response =>
          left
          simp only [Handler, unmarshalRequest, hc, Option.some.injEq] at hr
          rw [← hr]

/-- Witness for `errorResponses_uniform` at a concrete input. -/
theorem errorResponses_uniform_witness :
    unmarshalRequest .malformed = some (.inr (handleError "invalid json payload")) ∧
    (handleError "invalid json payload" = handleError "invalid json payload" ∨
      handleError "invalid json payload"
        = handleError "account number missing from payload") :=
  ⟨rfl, errorResponses_uniform.2.1 .malformed (handleError "invalid json payload") rfl⟩

end AccountValidator
